import Mathlib

/-!
Shallow embedding of the ip-intel lookup engine: the `model.IPInfo` record,
the in-memory TTL cache (`internal/cache/cache.go`), the persistent store
(`internal/store/store.go`), the provider chain with sliding-window rate
limiting (`internal/lookup/providers.go`), the datacenter ASN registry
(`internal/lookup/asn_list.go`), the local MMDB resolver (`LocalDB.Lookup`),
and the multi-tier resolution algorithm `Service.Lookup`.

External effects are modelled explicitly: wall-clock time is a parameter
`now : Int` (Unix seconds), the MMDB reader and the HTTP query of each provider
are oracles (`String → Option MMDBRecord`, `String → Option IPInfo`, with
`none` standing for the Go error case), and `Service.Lookup` additionally
returns the list of provider names whose query function was invoked, so
that "no provider is ever consulted" is a statable property.  The Go
`Lookup` returns a `(*model.IPInfo, error)` pair whose error is literally
`nil` on every path, so the embedding returns the result directly.
-/

namespace IPIntel

/-- Record `model.IPInfo` from `internal/model/model.go`; field defaults are the Go
zero values, so a Go struct literal like `&model.IPInfo{IP: ip, Source: "none"}`
is `{ IP := ip, Source := "none" }` here. -/
structure IPInfo where
  IP : String := ""
  IsDatacenter : Bool := false
  IsProxy : Bool := false
  IsVPN : Bool := false
  IsTor : Bool := false
  ASN : Int := 0
  ASNOrg : String := ""
  ISP : String := ""
  Country : String := ""
  CountryCode : String := ""
  City : String := ""
  Source : String := ""
  Cached : Bool := false
deriving DecidableEq, Repr

/-- The embedded datacenter ASN table from `internal/lookup/asn_list.go`
(`var DatacenterASNs = map[int]string{...}`), as an association list with
the distinct keys of the map. -/
def DatacenterASNs : List (Int × String) :=
  [(16509, "Amazon.com / AWS"),
   (14618, "Amazon.com / AWS"),
   (8075, "Microsoft Azure"),
   (15169, "Google Cloud"),
   (396982, "Google Cloud"),
   (45102, "Alibaba Cloud"),
   (45090, "Tencent Cloud"),
   (132203, "Tencent Cloud"),
   (31898, "Oracle Cloud"),
   (36351, "IBM Cloud / SoftLayer"),
   (13335, "Cloudflare"),
   (14061, "DigitalOcean"),
   (20473, "Vultr / Choopa"),
   (63949, "Linode / Akamai Connected Cloud"),
   (396998, "Linode / Akamai Connected Cloud"),
   (16276, "OVHcloud"),
   (24940, "Hetzner Online"),
   (12876, "Scaleway (Online SAS)"),
   (40021, "Contabo"),
   (51167, "Contabo"),
   (209605, "Contabo Asia"),
   (60781, "LeaseWeb"),
   (28753, "LeaseWeb"),
   (30633, "LeaseWeb"),
   (9009, "M247 / G-Core Labs"),
   (202053, "UpCloud"),
   (35540, "MivoCloud"),
   (42730, "EVOCATIVE (eStruxture)"),
   (55286, "Equinix Metal (Packet)"),
   (13414, "Twitter / X Infrastructure"),
   (33070, "Rackspace"),
   (19994, "Rackspace"),
   (36352, "ColoCrossing"),
   (40676, "Psychz Networks"),
   (8100, "QuadraNet"),
   (23352, "ServerCentral"),
   (21859, "Zenlayer"),
   (54574, "DMIT"),
   (906, "DMIT"),
   (25820, "IT7 Networks (BandwagonHost)"),
   (36007, "Kamatera"),
   (54290, "Hostwinds"),
   (62567, "DigitalOcean (NYC)"),
   (46664, "VolumeDrive"),
   (30083, "HEG US (Hetzner US)"),
   (62563, "GTHost"),
   (398101, "GoDaddy Cloud"),
   (26496, "GoDaddy Hosting"),
   (394695, "Google Cloud (Dedicated)"),
   (19527, "Google Fiber (Cloud)"),
   (38001, "NewMedia Express (SG)"),
   (45753, "NTT SmartConnect (JP)"),
   (132335, "LeapSwitch (IN)"),
   (55720, "Gigabit Hosting (MY)"),
   (38731, "Vietel IDC (VN)"),
   (45899, "VNPT (VN IDC)"),
   (56040, "China Mobile Cloud"),
   (37963, "Alibaba Cloud (HK)"),
   (58461, "China Telecom Cloud"),
   (131477, "Sify Technologies (IN)"),
   (55933, "Cloudie (HK)"),
   (141995, "Tencent Cloud AP"),
   (47583, "Hostinger"),
   (44477, "Stark Industries (Hosting)"),
   (197540, "Netcup"),
   (34549, "Meer Web (NL)"),
   (29066, "velia.net"),
   (50673, "Serverius"),
   (60068, "Datacamp (CDN77)"),
   (212238, "Datacamp (CDN77)"),
   (42831, "UK Dedicated Servers"),
   (213230, "Hetzner Cloud"),
   (200019, "AlexHost (MD)"),
   (59711, "HZ Hosting"),
   (49981, "WorldStream"),
   (48282, "HIVELOCITY"),
   (35415, "Webzilla"),
   (50979, "Selectel"),
   (208091, "Postman (Hosting)"),
   (206092, "VPN providers infrastructure"),
   (396356, "Maxihost"),
   (20940, "Akamai Technologies"),
   (54113, "Fastly"),
   (209242, "Cloudflare (WARP)"),
   (132892, "Cloudflare (AP)"),
   (397213, "Cloudflare")]

/-- Function `IsKnownDatacenterASN` from `asn_list.go`: map membership, returning the
organization name on a hit (`(org, ok)` in Go, `Option String` here). -/
def IsKnownDatacenterASN (asn : Int) : Option String :=
  DatacenterASNs.lookup asn

/-- A cache entry (`entry` in `internal/cache/cache.go`): stored result plus
absolute expiry time. -/
structure CacheEntry where
  data : IPInfo
  expiresAt : Int
deriving DecidableEq

/-- The in-memory TTL cache (`Cache` in `internal/cache/cache.go`): the
`items` map is a functional map, `ttl` the uniform TTL. -/
structure Cache where
  items : String → Option CacheEntry
  ttl : Int

/-- Method `Cache.Get`: miss when no entry exists or `time.Now().After(e.expiresAt)`
(strictly after). On a hit, the Go code copies the stored struct
(`result := *e.data; result.Cached = true`) and never writes to the map, so
the embedding returns the copy together with the unchanged cache. -/
def Cache.Get (c : Cache) (now : Int) (ip : String) : Option IPInfo × Cache :=
  match c.items ip with
  | none => (none, c)
  | some e =>
    if e.expiresAt < now then (none, c)
    else (some { e.data with Cached := true }, c)

/-- Method `Cache.Set`: always overwrites, with expiry `now + ttl`. -/
def Cache.Set (c : Cache) (now : Int) (ip : String) (info : IPInfo) : Cache :=
  { c with items := fun k => if k = ip then some ⟨info, now + c.ttl⟩ else c.items k }

/-- The persistent SQLite cache (`Store` in `internal/store/store.go`): one
row per IP (primary key) holding the serialized result and `updated_at`;
the JSON round trip `Marshal`/`Unmarshal` of a `model.IPInfo` is the
identity, so rows hold the `IPInfo` value directly. -/
structure Store where
  rows : String → Option (IPInfo × Int)
  ttl : Int

/-- Method `Store.Get`: SQL `WHERE ip = ? AND updated_at > ?` with
`cutoff = now - ttl` (strict comparison). -/
def Store.Get (st : Store) (now : Int) (ip : String) : Option IPInfo :=
  match st.rows ip with
  | some (info, up) => if now - st.ttl < up then some info else none
  | none => none

/-- Method `Store.Set`: upsert keyed by IP with `updated_at = now`. -/
def Store.Set (st : Store) (now : Int) (ip : String) (info : IPInfo) : Store :=
  { st with rows := fun k => if k = ip then some (info, now) else st.rows k }

/-- A provider (`Provider` in `internal/lookup/providers.go`): name, query
oracle (`none` = the Go error case), rate ceiling, key flags, and the
sliding window of recorded call times (Unix seconds). -/
structure Provider where
  Name : String
  QueryFn : String → Option IPInfo := fun _ => none
  RateLimit : Int := 0
  NeedsKey : Bool := false
  HasKey : Bool := false
  callTimes : List Int := []

/-- Method `Provider.Available`: key gate, then the unmetered-keyed gate
(`RateLimit <= 0` returns `HasKey`), then prune the window to calls with
`t > now - 60` (the pruned window is written back, as in the Go code) and
compare its length against the ceiling. -/
def Provider.Available (p : Provider) (now : Int) : Bool × Provider :=
  if p.NeedsKey && !p.HasKey then (false, p)
  else if p.RateLimit ≤ 0 then (p.HasKey, p)
  else
    let valid := p.callTimes.filter (fun t => now - 60 < t)
    (decide (valid.length < p.RateLimit), { p with callTimes := valid })

/-- Method `Provider.RecordCall`: append the current time to the window. -/
def Provider.RecordCall (p : Provider) (now : Int) : Provider :=
  { p with callTimes := p.callTimes ++ [now] }

/-- Method `Provider.UsedLastMinute`: count of recorded calls with `t > now - 60`. -/
def Provider.UsedLastMinute (p : Provider) (now : Int) : Nat :=
  (p.callTimes.filter (fun t => now - 60 < t)).length

/-- One attempt per listed time against a single provider: check
`Available`, and record a call exactly when it passes (the check-then-record
discipline of `Service.queryProviders`). Returns the availability verdicts. -/
def runAttempts (p : Provider) : List Int → List Bool
  | [] => []
  | t :: ts =>
    if (p.Available t).1 then
      true :: runAttempts (((p.Available t).2).RecordCall t) ts
    else
      false :: runAttempts ((p.Available t).2) ts

/-- An ASCII decimal digit, as the Go byte test `c >= '0' && c <= '9'`. -/
def isDigitChar (c : Char) : Bool := '0' ≤ c && c ≤ '9'

/-- Decimal value of a digit run, accumulated left to right as in the Go
loop `result = result*10 + int(num[i]-'0')` (over `Nat`, before wrapping). -/
def digitsToNat (ds : List Char) : Nat :=
  ds.foldl (fun acc c => acc * 10 + (c.toNat - '0'.toNat)) 0

/-- Wrap (two-complement style) of a natural number into a signed 64-bit value,
the semantics of the Go `int` accumulation on a 64-bit platform. -/
def wrapInt64 (n : Nat) : Int :=
  let m : Nat := n % 2 ^ 64
  if m < 2 ^ 63 then (m : Int) else (m : Int) - 2 ^ 64

/-- The digit-scanning tail of `parseASN` (the `end` loop and accumulation):
take the leading run of decimal digits of `num`; 0 if the run is empty,
otherwise its decimal value accumulated in a 64-bit signed integer. -/
def parseDigitsRun (num : List Char) : Int :=
  if (num.takeWhile isDigitChar).isEmpty then 0
  else wrapInt64 (digitsToNat (num.takeWhile isDigitChar))

/-- Function `parseASN` from `internal/lookup/providers.go`, on the character list of
the input: return 0 for inputs shorter than 3; strip a leading `"AS"` or
`"as"` (exactly those two byte pairs, `s[:2] == "AS" || s[:2] == "as"`);
then scan the leading digit run. -/
def parseASNCore (s : List Char) : Int :=
  if s.length < 3 then 0
  else if 2 < s.length ∧ (s.take 2 = ['A', 'S'] ∨ s.take 2 = ['a', 's']) then
    parseDigitsRun (s.drop 2)
  else parseDigitsRun s

/-- Function `parseASN` on a string (ASCII inputs; Go indexes bytes, which coincide
with characters here). -/
def parseASN (s : String) : Int := parseASNCore s.toList

/-- The decoded `ip-api.com` response body (the anonymous response struct of `queryIPAPI`). -/
structure IPAPIResp where
  status : String := ""
  message : String := ""
  country : String := ""
  countryCode : String := ""
  city : String := ""
  isp : String := ""
  org : String := ""
  AS : String := ""
  hosting : Bool := false
  proxy : Bool := false

/-- The pure core of `queryIPAPI`: given the decoded response, fail unless
`status == "success"`, otherwise build the result with `parseASN(resp.AS)`
and `Source = "ip-api"`. The HTTP fetch itself is the oracle part. -/
def queryIPAPI (resp : IPAPIResp) (ip : String) : Option IPInfo :=
  if resp.status = "success" then
    some { IP := ip, IsDatacenter := resp.hosting, IsProxy := resp.proxy,
           ASN := parseASN resp.AS, ASNOrg := resp.org, ISP := resp.isp,
           Country := resp.country, CountryCode := resp.countryCode,
           City := resp.city, Source := "ip-api" }
  else none

/-- A decoded GeoLite2-ASN MMDB record (`mmdbRecord` in the source). -/
structure MMDBRecord where
  autonomousSystemNumber : Int
  autonomousSystemOrganization : String
deriving DecidableEq

/-- Method `LocalDB.Lookup`: the IP parse + MMDB read is the oracle `reader`
(`none` = the Go error cases); on success build the `Source = "local"`
result with ASN/org/ISP from the record, then upgrade via the datacenter
registry (setting `IsDatacenter` and overriding `ASNOrg`). -/
def LocalDB.Lookup (reader : String → Option MMDBRecord) (ip : String) :
    Option IPInfo :=
  match reader ip with
  | none => none
  | some record =>
    let info : IPInfo :=
      { IP := ip, ASN := record.autonomousSystemNumber,
        ASNOrg := record.autonomousSystemOrganization,
        ISP := record.autonomousSystemOrganization,
        Source := "local" }
    match IsKnownDatacenterASN record.autonomousSystemNumber with
    | some org => some { info with IsDatacenter := true, ASNOrg := org }
    | none => some info

/-- Method `Service.queryProviders`: walk the chain in order; skip unavailable
providers (their pruned window is kept, as `Available` writes it back);
record a call then query on the available ones; stop on first success.
Besides the optional result and the updated provider states, return the
names of the providers whose `QueryFn` was actually invoked. -/
def queryProviders (now : Int) (ip : String) :
    List Provider → Option IPInfo × List Provider × List String
  | [] => (none, [], [])
  | p :: rest =>
    if (p.Available now).1 then
      match p.QueryFn ip with
      | some v => (some v, ((p.Available now).2).RecordCall now :: rest, [p.Name])
      | none =>
        ((queryProviders now ip rest).1,
         ((p.Available now).2).RecordCall now :: (queryProviders now ip rest).2.1,
         p.Name :: (queryProviders now ip rest).2.2)
    else
      ((queryProviders now ip rest).1,
       (p.Available now).2 :: (queryProviders now ip rest).2.1,
       (queryProviders now ip rest).2.2)

/-- The lookup service (`Service` in the orchestrator file):
memory cache, optional persistent store, optional local resolver (the MMDB
reader oracle; `none` = `s.localDB == nil`), and the provider chain. -/
structure Service where
  cache : Cache
  store : Option Store
  localDB : Option (String → Option MMDBRecord)
  providers : List Provider

/-- The outcome of one `Service.Lookup` call: the result, the post-state,
and the names of the providers whose query function was invoked. -/
structure LookupOut where
  info : IPInfo
  service : Service
  calls : List String

/-- Method `Service.persistResult`: write to the persistent cache when enabled. -/
def Service.persistResult (s : Service) (now : Int) (ip : String)
    (info : IPInfo) : Service :=
  match s.store with
  | some st => { s with store := some (st.Set now ip info) }
  | none => s

/-- Step 4/5 of `Service.Lookup` when local resolution succeeded without a
datacenter verdict and the persistent cache missed: query the chain; on
success merge (backfill ASN/org from `info` when the ASN of the provider result is 0),
cache and persist; on exhaustion cache and return the local result. -/
def Service.lookupEnrich (s : Service) (now : Int) (ip : String)
    (info : IPInfo) : LookupOut :=
  let q := queryProviders now ip s.providers
  let s1 := { s with providers := q.2.1 }
  match q.1 with
  | some e0 =>
    let e := if e0.ASN = 0 then { e0 with ASN := info.ASN, ASNOrg := info.ASNOrg } else e0
    let s2 := { s1 with cache := s1.cache.Set now ip e }
    ⟨e, s2.persistResult now ip e, q.2.2⟩
  | none =>
    ⟨info, { s1 with cache := s1.cache.Set now ip info }, q.2.2⟩

/-- Step 5/6 of `Service.Lookup` when there is no usable local data: query
the chain directly; on success cross-check the ASN against the registry and
upgrade `IsDatacenter`, cache and persist; otherwise return the minimal
`Source = "none"` placeholder (which the code does not cache). -/
def Service.lookupDirect (s : Service) (now : Int) (ip : String) : LookupOut :=
  let q := queryProviders now ip s.providers
  let s1 := { s with providers := q.2.1 }
  match q.1 with
  | some info0 =>
    let info := if (IsKnownDatacenterASN info0.ASN).isSome then
                  { info0 with IsDatacenter := true } else info0
    let s2 := { s1 with cache := s1.cache.Set now ip info }
    ⟨info, s2.persistResult now ip info, q.2.2⟩
  | none =>
    ⟨{ IP := ip, Source := "none" }, s1, q.2.2⟩

/-- Step 3b of `Service.Lookup` (no local DB, or local resolution failed):
persistent cache, then the direct provider path. -/
def Service.lookupNoLocal (s : Service) (now : Int) (ip : String) : LookupOut :=
  match s.store with
  | some st =>
    match st.Get now ip with
    | some stored0 =>
      let stored := { stored0 with Cached := true }
      ⟨stored, { s with cache := s.cache.Set now ip stored }, []⟩
    | none => s.lookupDirect now ip
  | none => s.lookupDirect now ip

/-- Method `Service.Lookup` (the orchestrator with persistent cache): memory cache
→ local MMDB + ASN list (datacenter fast path) → persistent cache →
provider chain → local fallback → minimal `"none"` placeholder. -/
def Service.Lookup (s : Service) (now : Int) (ip : String) : LookupOut :=
  match (s.cache.Get now ip).1 with
  | some info => ⟨info, s, []⟩
  | none =>
    match s.localDB with
    | some reader =>
      match LocalDB.Lookup reader ip with
      | some info =>
        if info.IsDatacenter then
          ⟨info, { s with cache := s.cache.Set now ip info }, []⟩
        else
          match s.store with
          | some st =>
            match st.Get now ip with
            | some stored0 =>
              let stored1 :=
                if stored0.ASN = 0 then
                  { stored0 with ASN := info.ASN, ASNOrg := info.ASNOrg }
                else stored0
              let stored := { stored1 with Cached := true }
              ⟨stored, { s with cache := s.cache.Set now ip stored }, []⟩
            | none => s.lookupEnrich now ip info
          | none => s.lookupEnrich now ip info
      | none => s.lookupNoLocal now ip
    | none => s.lookupNoLocal now ip

/-! ## Helper lemmas -/

/-- Taking `takeWhile` of a run of satisfying elements followed by a non-satisfying
head is the run itself. -/
theorem takeWhile_run_append (p : Char → Bool) (ds t : List Char)
    (hds : ∀ c ∈ ds, p c = true) (ht : ∀ c, t.head? = some c → p c = false) :
    (ds ++ t).takeWhile p = ds := by
  induction ds with
  | nil =>
    cases t with
    | nil => rfl
    | cons c cs => simp [List.takeWhile_cons, ht c rfl]
  | cons d ds ih =>
    have hd : p d = true := hds d (by simp)
    simp only [List.cons_append, List.takeWhile_cons, hd, if_true]
    have := ih (fun c hc => hds c (by simp [hc]))
    simp [this]

/-- Wrapping a value below `2 ^ 63` into a signed 64-bit integer is the
identity. -/
theorem wrapInt64_of_lt (n : Nat) (h : n < 2 ^ 63) : wrapInt64 n = n := by
  unfold wrapInt64
  have h64 : n < 2 ^ 64 := lt_trans h (by norm_num)
  rw [Nat.mod_eq_of_lt h64, if_pos h]

/-- Scanning a nonempty digit run (followed by a non-digit boundary) whose
value fits in a signed 64-bit integer yields the decimal value of the run. -/
theorem parseDigitsRun_run_append (ds t : List Char) (hne : ds ≠ [])
    (hds : ∀ c ∈ ds, isDigitChar c = true)
    (ht : ∀ c, t.head? = some c → isDigitChar c = false)
    (hlt : digitsToNat ds < 2 ^ 63) :
    parseDigitsRun (ds ++ t) = digitsToNat ds := by
  have hrun : (ds ++ t).takeWhile isDigitChar = ds :=
    takeWhile_run_append isDigitChar ds t hds ht
  have hie : ds.isEmpty = false := by
    cases ds with
    | nil => exact absurd rfl hne
    | cons a l => rfl
  unfold parseDigitsRun
  rw [hrun]
  simp [hie, wrapInt64_of_lt _ hlt]

/-! ## C4 — cache round trip -/

/-- C4: `Cache.Set(ip, r)` immediately followed by `Cache.Get(ip)` (same
instant, nonnegative TTL) returns a hit equal to `r` in every field except
`Cached`, which is forced to `true`; the `Get` performs no write, returning
the stored cache unchanged (the Go code copies the entry under a read
lock). -/
theorem C4_cache_round_trip (c : Cache) (now : Int) (ip : String) (r : IPInfo)
    (h : 0 ≤ c.ttl) :
    ((c.Set now ip r).Get now ip).1 = some { r with Cached := true } ∧
    ((c.Set now ip r).Get now ip).2 = c.Set now ip r := by
  have hexp : ¬ (now + c.ttl < now) := by omega
  constructor
  · simp [Cache.Get, Cache.Set, hexp]
  · simp [Cache.Get, Cache.Set, hexp]

/-- Witness for C4 at a concrete cache, time, IP and result. -/
theorem C4_witness :
    (((⟨fun _ => none, 5⟩ : Cache).Set 100 "1.2.3.4"
        { IP := "1.2.3.4", ASN := 7, ASNOrg := "x", Source := "ip-api" }).Get 100 "1.2.3.4").1 =
      some { IP := "1.2.3.4", ASN := 7, ASNOrg := "x", Source := "ip-api", Cached := true } :=
  (C4_cache_round_trip ⟨fun _ => none, 5⟩ 100 "1.2.3.4"
    { IP := "1.2.3.4", ASN := 7, ASNOrg := "x", Source := "ip-api" } (by decide)).1

/-! ## C7 — parseASN -/

/-- C7 counterexample: the claim says every `<digits>` string yields its
decimal number and that the `AS` prefix is recognized case-insensitively,
but the code returns 0 for any input shorter than 3 characters (`"42"`)
and does not strip the mixed-case prefix `"As"` (`"As16509"` has no leading
digits after the non-stripped prefix). -/
theorem C7_counterexample :
    parseASN "42" = 0 ∧ parseASN "As16509" = 0 ∧ ((0 : Int) ≠ 42 ∧ (0 : Int) ≠ 16509) := by
  decide

/-- C7 amended: `parseASN` returns 0 for strings shorter than 3 characters;
otherwise it strips a leading `"AS"` or `"as"` (exact case only), takes the
leading run of decimal digits, returns 0 when the run is empty and the
decimal value of the run otherwise (as long as it fits in a signed 64-bit
integer); in particular `"AS16509 Amazon.com, Inc."` → 16509, `"16509"` →
16509, `""` → 0, `"ASxyz"` → 0, while `"42"` → 0 and `"As16509"` → 0. -/
theorem C7_parseASN_amended :
    (∀ ds t : List Char, ds ≠ [] → (∀ c ∈ ds, isDigitChar c = true) →
       (∀ c, t.head? = some c → isDigitChar c = false) → digitsToNat ds < 2 ^ 63 →
       parseASNCore ('A' :: 'S' :: (ds ++ t)) = digitsToNat ds ∧
       parseASNCore ('a' :: 's' :: (ds ++ t)) = digitsToNat ds) ∧
    (∀ ds : List Char, 3 ≤ ds.length → (∀ c ∈ ds, isDigitChar c = true) →
       digitsToNat ds < 2 ^ 63 → parseASNCore ds = digitsToNat ds) ∧
    (∀ s : List Char, s.length < 3 → parseASNCore s = 0) ∧
    parseASN "AS16509 Amazon.com, Inc." = 16509 ∧ parseASN "16509" = 16509 ∧
    parseASN "" = 0 ∧ parseASN "ASxyz" = 0 ∧ parseASN "42" = 0 ∧
    parseASN "As16509" = 0 := by
  refine ⟨?_, ?_, ?_, by decide, by decide, by decide, by decide, by decide, by decide⟩
  · intro ds t hne hds ht hlt
    have hpos : 0 < ds.length := List.length_pos.mpr hne
    have hrun := parseDigitsRun_run_append ds t hne hds ht hlt
    constructor
    · have hlen : ¬ (('A' :: 'S' :: (ds ++ t)).length < 3) := by
        simp only [List.length_cons, List.length_append]
        omega
      have hgt : 2 < ('A' :: 'S' :: (ds ++ t)).length := by
        simp only [List.length_cons, List.length_append]
        omega
      have htake : ('A' :: 'S' :: (ds ++ t)).take 2 = ['A', 'S'] := rfl
      have hdrop : ('A' :: 'S' :: (ds ++ t)).drop 2 = ds ++ t := rfl
      unfold parseASNCore
      rw [if_neg hlen, if_pos ⟨hgt, Or.inl htake⟩, hdrop, hrun]
    · have hlen : ¬ (('a' :: 's' :: (ds ++ t)).length < 3) := by
        simp only [List.length_cons, List.length_append]
        omega
      have hgt : 2 < ('a' :: 's' :: (ds ++ t)).length := by
        simp only [List.length_cons, List.length_append]
        omega
      have htake : ('a' :: 's' :: (ds ++ t)).take 2 = ['a', 's'] := rfl
      have hdrop : ('a' :: 's' :: (ds ++ t)).drop 2 = ds ++ t := rfl
      unfold parseASNCore
      rw [if_neg hlen, if_pos ⟨hgt, Or.inr htake⟩, hdrop, hrun]
  · intro ds hlen hds hlt
    match ds, hlen, hds, hlt with
    | d0 :: d1 :: d2 :: rest, _, hds, hlt =>
      have h0 : isDigitChar d0 = true := hds d0 (by simp)
      have htake : (d0 :: d1 :: d2 :: rest).take 2 = [d0, d1] := rfl
      have hcond : ¬ (2 < (d0 :: d1 :: d2 :: rest).length ∧
          ((d0 :: d1 :: d2 :: rest).take 2 = ['A', 'S'] ∨
           (d0 :: d1 :: d2 :: rest).take 2 = ['a', 's'])) := by
        rintro ⟨-, hc | hc⟩
        · rw [htake] at hc
          have hd0 : d0 = 'A' := by injection hc with h1 h2
          rw [hd0] at h0
          exact absurd h0 (by decide)
        · rw [htake] at hc
          have hd0 : d0 = 'a' := by injection hc with h1 h2
          rw [hd0] at h0
          exact absurd h0 (by decide)
      have hrun : parseDigitsRun (d0 :: d1 :: d2 :: rest) =
          digitsToNat (d0 :: d1 :: d2 :: rest) := by
        have := parseDigitsRun_run_append (d0 :: d1 :: d2 :: rest) []
          (by simp) hds (by intro c hc; simp at hc) hlt
        simpa using this
      unfold parseASNCore
      rw [if_neg (by simp only [List.length_cons]; omega), if_neg hcond, hrun]
  · intro s hs
    unfold parseASNCore
    rw [if_pos hs]

/-- Witness for the amended C7 theorem: the general digit-run case applied to
`"AS16509 ..."`-shaped input. -/
theorem C7_witness :
    parseASNCore ('A' :: 'S' :: (['1', '6', '5', '0', '9'] ++ [' ', 'A'])) =
      digitsToNat ['1', '6', '5', '0', '9'] :=
  ((C7_parseASN_amended.1 ['1', '6', '5', '0', '9'] [' ', 'A']
    (by decide) (by decide) (by decide) (by decide)).1)

/-! ## C5 — provider rate limiting -/

/-- C5: for a provider with a positive rate ceiling whose key requirement is
met, `Available` holds exactly when the number of recorded calls inside the
rolling 60-second window (`t > now - 60`) is below the ceiling — so the
first `N` in-window calls pass, the `(N+1)`th fails, and availability
returns once the oldest call leaves the window; `Available` writes back the
pruned window and `RecordCall` appends the current time.  The final
conjunct replays the claimed scenario: ceiling 2, attempts at times
100, 100, 100, 161 give available, available, unavailable, available. -/
theorem C5_rate_limiting :
    (∀ (p : Provider) (now : Int), 0 < p.RateLimit →
       (p.NeedsKey = true → p.HasKey = true) →
       ((p.Available now).1 =
          decide ((p.callTimes.filter (fun t => now - 60 < t)).length < p.RateLimit) ∧
        (p.Available now).2.callTimes = p.callTimes.filter (fun t => now - 60 < t) ∧
        ∀ t, (p.RecordCall t).callTimes = p.callTimes ++ [t])) ∧
    runAttempts { Name := "test", RateLimit := 2, HasKey := true }
        [100, 100, 100, 161] = [true, true, false, true] := by
  constructor
  · intro p now hN hk
    have hgate : (p.NeedsKey && !p.HasKey) = false := by
      cases hnk : p.NeedsKey with
      | false => simp
      | true => simp [hk hnk]
    have hrl : ¬ (p.RateLimit ≤ 0) := by omega
    refine ⟨?_, ?_, fun t => rfl⟩
    · simp [Provider.Available, hgate, hrl]
    · simp [Provider.Available, hgate, hrl]
  · decide

/-- Witness for C5 at a concrete provider and time. -/
theorem C5_witness :
    (((⟨"w", fun _ => none, 3, false, true, [50, 70]⟩ : Provider).Available 100).1 =
       decide ((([50, 70] : List Int).filter (fun t => (100 : Int) - 60 < t)).length < 3)) :=
  ((C5_rate_limiting.1 ⟨"w", fun _ => none, 3, false, true, [50, 70]⟩ 100
    (by decide) (by intro h; exact rfl)).1)

/-! ## C2 — datacenter fast path -/

/-- C2: on a memory-cache miss, when the offline resolver succeeds and the
ASN is in the datacenter registry, `Lookup` returns `IsDatacenter = true`
with the registry organization name and `Source = "local"`, stores that
result in the memory cache, and never invokes the query function of any provider
(the invocation log is empty and the provider states are untouched). -/
theorem C2_datacenter_fast_path (s : Service) (now : Int) (ip : String)
    (reader : String → Option MMDBRecord) (rec : MMDBRecord) (org : String)
    (hm : (s.cache.Get now ip).1 = none)
    (hdb : s.localDB = some reader)
    (hr : reader ip = some rec)
    (hreg : IsKnownDatacenterASN rec.autonomousSystemNumber = some org) :
    (s.Lookup now ip).info =
      { IP := ip, IsDatacenter := true, ASN := rec.autonomousSystemNumber,
        ASNOrg := org, ISP := rec.autonomousSystemOrganization,
        Source := "local" } ∧
    (s.Lookup now ip).service.cache =
      s.cache.Set now ip (s.Lookup now ip).info ∧
    (s.Lookup now ip).service.providers = s.providers ∧
    (s.Lookup now ip).service.store = s.store ∧
    (s.Lookup now ip).calls = [] := by
  simp only [Service.Lookup, hm, hdb, LocalDB.Lookup, hr, hreg]
  exact ⟨rfl, rfl, rfl, rfl, rfl⟩

/-- Witness for C2: a concrete service whose resolver reports ASN 16509,
which the registry maps to "Amazon.com / AWS". -/
theorem C2_witness :
    ((⟨⟨fun _ => none, 5⟩, none, some (fun _ => some ⟨16509, "AMAZON-02"⟩),
        []⟩ : Service).Lookup 0 "1.2.3.4").info =
      { IP := "1.2.3.4", IsDatacenter := true, ASN := 16509,
        ASNOrg := "Amazon.com / AWS", ISP := "AMAZON-02",
        Source := "local" } :=
  (C2_datacenter_fast_path
    ⟨⟨fun _ => none, 5⟩, none, some (fun _ => some ⟨16509, "AMAZON-02"⟩), []⟩
    0 "1.2.3.4" (fun _ => some ⟨16509, "AMAZON-02"⟩) ⟨16509, "AMAZON-02"⟩
    "Amazon.com / AWS" rfl rfl rfl (by decide)).1

/-! ## C3 — merge policy -/

/-- C3: on a cache miss with a successful offline resolution whose ASN is
not in the registry, a persistent-cache miss, and a provider success `e`,
the merged result keeps the proxy/VPN/Tor/datacenter flags of the provider result, and
the ASN/org are backfilled from the local resolution exactly when the
ASN reported by the provider is zero. -/
theorem C3_merge_policy (s : Service) (now : Int) (ip : String)
    (reader : String → Option MMDBRecord) (rec : MMDBRecord) (e : IPInfo)
    (hm : (s.cache.Get now ip).1 = none)
    (hdb : s.localDB = some reader)
    (hr : reader ip = some rec)
    (hreg : IsKnownDatacenterASN rec.autonomousSystemNumber = none)
    (hst : ∀ st, s.store = some st → st.Get now ip = none)
    (hq : (queryProviders now ip s.providers).1 = some e) :
    ((s.Lookup now ip).info.IsProxy = e.IsProxy ∧
     (s.Lookup now ip).info.IsVPN = e.IsVPN ∧
     (s.Lookup now ip).info.IsTor = e.IsTor ∧
     (s.Lookup now ip).info.IsDatacenter = e.IsDatacenter) ∧
    (e.ASN = 0 →
      (s.Lookup now ip).info.ASN = rec.autonomousSystemNumber ∧
      (s.Lookup now ip).info.ASNOrg = rec.autonomousSystemOrganization) ∧
    (e.ASN ≠ 0 →
      (s.Lookup now ip).info.ASN = e.ASN ∧
      (s.Lookup now ip).info.ASNOrg = e.ASNOrg) := by
  simp only [Service.Lookup, hm, hdb, LocalDB.Lookup, hr, hreg]
  cases hs : s.store with
  | none =>
    simp only [Service.lookupEnrich, hq]
    by_cases h0 : e.ASN = 0
    · simp [h0]
    · simp [h0]
  | some st =>
    simp only [hst st hs, Service.lookupEnrich, hq]
    by_cases h0 : e.ASN = 0
    · simp [h0]
    · simp [h0]

/-- Witness for C3, replaying the spec scenario: local ASN 12345 / org
"Foo Net" (not in the registry) merged with a provider result carrying
`IsProxy = true` and `ASN = 0` yields `IsProxy = true`, `ASN = 12345`,
`ASNOrg = "Foo Net"`. -/
theorem C3_witness :
    ((⟨⟨fun _ => none, 5⟩, none, some (fun _ => some ⟨12345, "Foo Net"⟩),
        [{ Name := "ip-api",
           QueryFn := fun k => some { IP := k, IsProxy := true, Source := "ip-api" },
           RateLimit := 40 }]⟩ : Service).Lookup 0 "5.6.7.8").info.ASN = 12345 ∧
    ((⟨⟨fun _ => none, 5⟩, none, some (fun _ => some ⟨12345, "Foo Net"⟩),
        [{ Name := "ip-api",
           QueryFn := fun k => some { IP := k, IsProxy := true, Source := "ip-api" },
           RateLimit := 40 }]⟩ : Service).Lookup 0 "5.6.7.8").info.ASNOrg = "Foo Net" ∧
    ((⟨⟨fun _ => none, 5⟩, none, some (fun _ => some ⟨12345, "Foo Net"⟩),
        [{ Name := "ip-api",
           QueryFn := fun k => some { IP := k, IsProxy := true, Source := "ip-api" },
           RateLimit := 40 }]⟩ : Service).Lookup 0 "5.6.7.8").info.IsProxy = true := by
  have h := C3_merge_policy
    ⟨⟨fun _ => none, 5⟩, none, some (fun _ => some ⟨12345, "Foo Net"⟩),
      [{ Name := "ip-api",
         QueryFn := fun k => some { IP := k, IsProxy := true, Source := "ip-api" },
         RateLimit := 40 }]⟩ 0 "5.6.7.8"
    (fun _ => some ⟨12345, "Foo Net"⟩) ⟨12345, "Foo Net"⟩
    { IP := "5.6.7.8", IsProxy := true, Source := "ip-api" }
    rfl rfl rfl (by decide) (fun st hst => by cases hst) (by decide)
  exact ⟨(h.2.1 rfl).1, (h.2.1 rfl).2, h.1.1⟩

/-! ## C6 — exhausted tiers -/

/-- C6 counterexample: with every tier exhausted (empty cache, no local DB,
no persistent store, no providers) the minimal `Source = "none"` result is
returned but is NOT stored in the memory cache — the cache still has no
entry for the IP after the lookup, contradicting the claim that the
fallback "is stored in the memory cache with the normal TTL". -/
theorem C6_counterexample :
    ((⟨⟨fun _ => none, 100⟩, none, none, []⟩ : Service).Lookup 0 "9.9.9.9").info =
      { IP := "9.9.9.9", Source := "none" } ∧
    ((⟨⟨fun _ => none, 100⟩, none, none, []⟩ : Service).Lookup 0
        "9.9.9.9").service.cache.items "9.9.9.9" = none := by
  constructor
  · rfl
  · rfl

/-- C6 amended: when every tier is exhausted (memory-cache miss, no usable
offline data, persistent-cache miss or absence, provider chain yields
nothing), `Lookup` returns the minimal result carrying only the input IP
and `Source = "none"`, and this result is NOT written to the memory cache
(nor to the persistent store): both are returned unchanged. -/
theorem C6_fallback_not_cached (s : Service) (now : Int) (ip : String)
    (hm : (s.cache.Get now ip).1 = none)
    (hnl : ∀ reader, s.localDB = some reader → reader ip = none)
    (hst : ∀ st, s.store = some st → st.Get now ip = none)
    (hq : (queryProviders now ip s.providers).1 = none) :
    (s.Lookup now ip).info = { IP := ip, Source := "none" } ∧
    (s.Lookup now ip).service.cache = s.cache ∧
    (s.Lookup now ip).service.store = s.store := by
  simp only [Service.Lookup, hm]
  cases hdb : s.localDB with
  | none =>
    simp only [Service.lookupNoLocal]
    cases hs : s.store with
    | none => simp [Service.lookupDirect, hq, hs]
    | some st =>
      simp only [hst st hs, Service.lookupDirect, hq]
      simp [hs]
  | some reader =>
    simp only [LocalDB.Lookup, hnl reader hdb, Service.lookupNoLocal]
    cases hs : s.store with
    | none => simp [Service.lookupDirect, hq, hs]
    | some st =>
      simp only [hst st hs, Service.lookupDirect, hq]
      simp [hs]

/-- Witness for the amended C6 theorem at a concrete exhausted service. -/
theorem C6_witness :
    ((⟨⟨fun _ => none, 7⟩, none, none,
        [{ Name := "ipdata", NeedsKey := true }]⟩ : Service).Lookup 3 "8.8.4.4").info =
      { IP := "8.8.4.4", Source := "none" } :=
  (C6_fallback_not_cached
    ⟨⟨fun _ => none, 7⟩, none, none, [{ Name := "ipdata", NeedsKey := true }]⟩
    3 "8.8.4.4" rfl (fun r hr => by cases hr) (fun st hst => by cases hst)
    (by decide)).1

/-! ## Inversion lemmas for the tiers -/

/-- A memory-cache hit comes from a stored entry, with `Cached` forced. -/
theorem Cache.Get_some_entry (c : Cache) (now : Int) (ip : String) (info : IPInfo)
    (h : (c.Get now ip).1 = some info) :
    ∃ e, c.items ip = some e ∧ info = { e.data with Cached := true } := by
  unfold Cache.Get at h
  cases he : c.items ip with
  | none => rw [he] at h; simp at h
  | some e =>
    rw [he] at h
    by_cases hx : e.expiresAt < now
    · simp [hx] at h
    · simp [hx] at h
      exact ⟨e, rfl, h.symm⟩

/-- A persistent-cache hit comes from a stored row. -/
theorem Store.Get_some_row (st : Store) (now : Int) (ip : String) (v : IPInfo)
    (h : st.Get now ip = some v) : ∃ u, st.rows ip = some (v, u) := by
  unfold Store.Get at h
  cases hr : st.rows ip with
  | none => rw [hr] at h; simp at h
  | some pr =>
    obtain ⟨w, u⟩ := pr
    rw [hr] at h
    by_cases hx : now - st.ttl < u
    · simp [hx] at h
      exact ⟨u, by rw [h]⟩
    · simp [hx] at h

/-- A successful local resolution always carries `Source = "local"`. -/
theorem LocalDB.Lookup_source (reader : String → Option MMDBRecord)
    (ip : String) (info : IPInfo)
    (h : LocalDB.Lookup reader ip = some info) : info.Source = "local" := by
  unfold LocalDB.Lookup at h
  cases hr : reader ip with
  | none => rw [hr] at h; simp at h
  | some record =>
    rw [hr] at h
    cases hk : IsKnownDatacenterASN record.autonomousSystemNumber with
    | none =>
      simp [hk] at h
      subst h
      rfl
    | some org =>
      simp [hk] at h
      subst h
      rfl

/-- A provider-chain success is the output of the query function of some listed provider. -/
theorem queryProviders_mem (now : Int) (ip : String) (ps : List Provider)
    (v : IPInfo) (h : (queryProviders now ip ps).1 = some v) :
    ∃ p ∈ ps, p.QueryFn ip = some v := by
  induction ps with
  | nil => simp [queryProviders] at h
  | cons p rest ih =>
    unfold queryProviders at h
    by_cases ha : (p.Available now).1
    · rw [if_pos ha] at h
      cases hf : p.QueryFn ip with
      | some w =>
        rw [hf] at h
        simp at h
        exact ⟨p, by simp, by rw [hf, h]⟩
      | none =>
        rw [hf] at h
        simp at h
        obtain ⟨q, hq, hv⟩ := ih h
        exact ⟨q, by simp [hq], hv⟩
    · rw [if_neg ha] at h
      simp at h
      obtain ⟨q, hq, hv⟩ := ih h
      exact ⟨q, by simp [hq], hv⟩

/-! ## C1 — lookup is total -/

/-- C1: when the stored or produced data of every tier carries a non-empty
source tag (memory-cache entries, persistent rows, provider responses — as
all producers in the repository do), `Lookup` returns a result with a
non-empty `Source` for every IP string: the tiers degrade down to the
`Source = "none"` placeholder and the Go error result is `nil` on every
path (the embedding therefore has no error component at all). -/
theorem C1_lookup_total (s : Service) (now : Int) (ip : String)
    (hc : ∀ k e, s.cache.items k = some e → e.data.Source ≠ "")
    (hs : ∀ st, s.store = some st → ∀ k v u, st.rows k = some (v, u) → v.Source ≠ "")
    (hp : ∀ p ∈ s.providers, ∀ k v, p.QueryFn k = some v → v.Source ≠ "") :
    (s.Lookup now ip).info.Source ≠ "" := by
  have hdirect : ∀ s1 : Service, s1.providers = s.providers →
      (s1.lookupDirect now ip).info.Source ≠ "" := by
    intro s1 hps
    unfold Service.lookupDirect
    cases hq : (queryProviders now ip s1.providers).1 with
    | none => simp [hq]
    | some info0 =>
      obtain ⟨p, hpmem, hpq⟩ := queryProviders_mem now ip s1.providers info0 hq
      have hsrc : info0.Source ≠ "" := hp p (hps ▸ hpmem) ip info0 hpq
      by_cases hk : (IsKnownDatacenterASN info0.ASN).isSome
      · simp [hq, hk, hsrc]
      · simp [hq, hk, hsrc]
  have henrich : ∀ info : IPInfo, info.Source ≠ "" →
      (s.lookupEnrich now ip info).info.Source ≠ "" := by
    intro info hinfo
    unfold Service.lookupEnrich
    cases hq : (queryProviders now ip s.providers).1 with
    | none => simp [hq, hinfo]
    | some e0 =>
      obtain ⟨p, hpmem, hpq⟩ := queryProviders_mem now ip s.providers e0 hq
      have hsrc : e0.Source ≠ "" := hp p hpmem ip e0 hpq
      by_cases h0 : e0.ASN = 0
      · simp [hq, h0, hsrc]
      · simp [hq, h0, hsrc]
  have hnolocal : (s.lookupNoLocal now ip).info.Source ≠ "" := by
    unfold Service.lookupNoLocal
    cases hst : s.store with
    | none => simp only [hst]; exact hdirect s rfl
    | some st =>
      simp only [hst]
      cases hg : st.Get now ip with
      | none => simp only [hg]; exact hdirect s rfl
      | some stored0 =>
        obtain ⟨u, hrow⟩ := Store.Get_some_row st now ip stored0 hg
        simp only [hg]
        simpa using hs st hst ip stored0 u hrow
  unfold Service.Lookup
  cases hg : (s.cache.Get now ip).1 with
  | some info =>
    simp only [hg]
    obtain ⟨e, hitems, hinfo⟩ := Cache.Get_some_entry s.cache now ip info hg
    simpa [hinfo] using hc ip e hitems
  | none =>
    simp only [hg]
    cases hdb : s.localDB with
    | none => simp only [hdb]; exact hnolocal
    | some reader =>
      simp only [hdb]
      cases hl : LocalDB.Lookup reader ip with
      | none => simp only [hl]; exact hnolocal
      | some info =>
        simp only [hl]
        have hloc : info.Source ≠ "" := by
          rw [LocalDB.Lookup_source reader ip info hl]
          simp
        by_cases hdc : info.IsDatacenter = true
        · simp [hdc, hloc]
        · simp only [hdc, if_false]
          cases hst : s.store with
          | none => simp only [hst]; exact henrich info hloc
          | some st =>
            simp only [hst]
            cases hg2 : st.Get now ip with
            | none => simp only [hg2]; exact henrich info hloc
            | some stored0 =>
              obtain ⟨u, hrow⟩ := Store.Get_some_row st now ip stored0 hg2
              have hsrc : stored0.Source ≠ "" := hs st hst ip stored0 u hrow
              simp only [hg2]
              by_cases h0 : stored0.ASN = 0
              · simp [h0, hsrc]
              · simp [h0, hsrc]

/-- Witness for C1 at a concrete service with every tier empty: the
placeholder source `"none"` is non-empty. -/
theorem C1_witness :
    ((⟨⟨fun _ => none, 9⟩, none, none, []⟩ : Service).Lookup 2 "6.6.6.6").info.Source ≠ "" :=
  C1_lookup_total ⟨⟨fun _ => none, 9⟩, none, none, []⟩ 2 "6.6.6.6"
    (fun k e h => by cases h) (fun st h => by cases h)
    (fun p h => by cases h)

/-! ## C9 — the ASN/org invariant -/

/-- A successful local resolution preserves the `ASN = 0 → ASNOrg = ""`
invariant when the underlying MMDB record satisfies it (a zero ASN can
never match the datacenter registry, whose keys are all nonzero). -/
theorem LocalDB.Lookup_asn_inv (reader : String → Option MMDBRecord)
    (ip : String) (info : IPInfo)
    (hdb : ∀ rec, reader ip = some rec → rec.autonomousSystemNumber = 0 →
      rec.autonomousSystemOrganization = "")
    (h : LocalDB.Lookup reader ip = some info) :
    info.ASN = 0 → info.ASNOrg = "" := by
  unfold LocalDB.Lookup at h
  cases hr : reader ip with
  | none => rw [hr] at h; simp at h
  | some record =>
    rw [hr] at h
    cases hk : IsKnownDatacenterASN record.autonomousSystemNumber with
    | none =>
      simp [hk] at h
      subst h
      intro h0
      exact hdb record hr h0
    | some org =>
      simp [hk] at h
      subst h
      intro h0
      have h0' : record.autonomousSystemNumber = 0 := h0
      rw [h0'] at hk
      have hznone : IsKnownDatacenterASN 0 = none := by decide
      rw [hznone] at hk
      cases hk

/-- C9 counterexample: a provider response with an unparseable ASN field but
a non-empty organization (here the real `ip-api` parser applied to
`status = "success"`, `as = ""`, `org = "Foo Net"`) flows through `Lookup`
unchanged, producing a completed result with `ASN = 0` and
`ASNOrg = "Foo Net" ≠ ""` — the claimed invariant does not hold for every
completed lookup. -/
theorem C9_counterexample :
    ((⟨⟨fun _ => none, 5⟩, none, none,
        [{ Name := "ip-api",
           QueryFn := fun k => queryIPAPI { status := "success", org := "Foo Net" } k,
           RateLimit := 40 }]⟩ : Service).Lookup 0 "7.7.7.7").info.ASN = 0 ∧
    ((⟨⟨fun _ => none, 5⟩, none, none,
        [{ Name := "ip-api",
           QueryFn := fun k => queryIPAPI { status := "success", org := "Foo Net" } k,
           RateLimit := 40 }]⟩ : Service).Lookup 0 "7.7.7.7").info.ASNOrg ≠ "" := by
  constructor
  · decide
  · decide

/-- C9 amended: the invariant `ASN = 0 → ASNOrg = ""` holds for every
completed lookup provided the inputs of every tier satisfy it — cache entries,
persistent rows, MMDB records, and provider responses; the merge step
preserves it because the backfill overwrites ASN and ASNOrg together.
Provider responses themselves may violate it (see the counterexample), so
the unconditional claim fails. -/
theorem C9_invariant_amended (s : Service) (now : Int) (ip : String)
    (hc : ∀ k e, s.cache.items k = some e → e.data.ASN = 0 → e.data.ASNOrg = "")
    (hsst : ∀ st, s.store = some st → ∀ k v u, st.rows k = some (v, u) →
      v.ASN = 0 → v.ASNOrg = "")
    (hdbi : ∀ reader, s.localDB = some reader → ∀ rec, reader ip = some rec →
      rec.autonomousSystemNumber = 0 → rec.autonomousSystemOrganization = "")
    (hp : ∀ p ∈ s.providers, ∀ k v, p.QueryFn k = some v →
      v.ASN = 0 → v.ASNOrg = "") :
    (s.Lookup now ip).info.ASN = 0 → (s.Lookup now ip).info.ASNOrg = "" := by
  have hdirect : ∀ s1 : Service, s1.providers = s.providers →
      (s1.lookupDirect now ip).info.ASN = 0 →
      (s1.lookupDirect now ip).info.ASNOrg = "" := by
    intro s1 hps
    unfold Service.lookupDirect
    cases hq : (queryProviders now ip s1.providers).1 with
    | none => simp [hq]
    | some info0 =>
      obtain ⟨p, hpmem, hpq⟩ := queryProviders_mem now ip s1.providers info0 hq
      have hinv := hp p (hps ▸ hpmem) ip info0 hpq
      by_cases hk : (IsKnownDatacenterASN info0.ASN).isSome
      · simp only [hq, hk, if_true]
        intro h0
        exact hinv h0
      · simp only [hq, hk, if_false]
        intro h0
        exact hinv h0
  have henrich : ∀ info : IPInfo, (info.ASN = 0 → info.ASNOrg = "") →
      (s.lookupEnrich now ip info).info.ASN = 0 →
      (s.lookupEnrich now ip info).info.ASNOrg = "" := by
    intro info hinfo
    unfold Service.lookupEnrich
    cases hq : (queryProviders now ip s.providers).1 with
    | none => simp only [hq]; exact hinfo
    | some e0 =>
      obtain ⟨p, hpmem, hpq⟩ := queryProviders_mem now ip s.providers e0 hq
      have hinv := hp p hpmem ip e0 hpq
      by_cases h0 : e0.ASN = 0
      · simp only [hq, h0, if_true]
        intro hz
        exact hinfo hz
      · simp only [hq, h0, if_false]
        intro hz
        exact hz.elim
  have hnolocal : (s.lookupNoLocal now ip).info.ASN = 0 →
      (s.lookupNoLocal now ip).info.ASNOrg = "" := by
    unfold Service.lookupNoLocal
    cases hst : s.store with
    | none => simp only [hst]; exact hdirect s rfl
    | some st =>
      simp only [hst]
      cases hg : st.Get now ip with
      | none => simp only [hg]; exact hdirect s rfl
      | some stored0 =>
        obtain ⟨u, hrow⟩ := Store.Get_some_row st now ip stored0 hg
        simp only [hg]
        intro h0
        exact hsst st hst ip stored0 u hrow h0
  unfold Service.Lookup
  cases hg : (s.cache.Get now ip).1 with
  | some info =>
    simp only [hg]
    obtain ⟨e, hitems, hinfo⟩ := Cache.Get_some_entry s.cache now ip info hg
    subst hinfo
    intro h0
    exact hc ip e hitems h0
  | none =>
    simp only [hg]
    cases hdb : s.localDB with
    | none => simp only [hdb]; exact hnolocal
    | some reader =>
      simp only [hdb]
      cases hl : LocalDB.Lookup reader ip with
      | none => simp only [hl]; exact hnolocal
      | some info =>
        simp only [hl]
        have hloc : info.ASN = 0 → info.ASNOrg = "" :=
          LocalDB.Lookup_asn_inv reader ip info (hdbi reader hdb) hl
        by_cases hdc : info.IsDatacenter = true
        · simp only [hdc, if_true]
          exact hloc
        · simp only [hdc, if_false]
          cases hst : s.store with
          | none => simp only [hst]; exact henrich info hloc
          | some st =>
            simp only [hst]
            cases hg2 : st.Get now ip with
            | none => simp only [hg2]; exact henrich info hloc
            | some stored0 =>
              obtain ⟨u, hrow⟩ := Store.Get_some_row st now ip stored0 hg2
              have hsinv := hsst st hst ip stored0 u hrow
              simp only [hg2]
              by_cases h0 : stored0.ASN = 0
              · simp only [h0, if_true]
                intro hz
                exact hloc hz
              · simp only [h0, if_false]
                intro hz
                exact hsinv hz

/-- Witness for the amended C9 theorem at a concrete well-formed service. -/
theorem C9_witness :
    ((⟨⟨fun _ => none, 9⟩, none, none, []⟩ : Service).Lookup 1 "4.4.4.4").info.ASNOrg = "" :=
  C9_invariant_amended ⟨⟨fun _ => none, 9⟩, none, none, []⟩ 1 "4.4.4.4"
    (fun k e h => by cases h) (fun st h => by cases h)
    (fun r h => by cases h) (fun p h => by cases h) (by decide)

/-! ## C10 — persistent-store frame -/

/-- C10: `Lookup` writes to the persistent cache only on a provider-chain
success — a memory-cache hit, the datacenter fast path, a persistent-cache
hit (with or without local data), and the local-only fallback each return
with the persistent store unchanged. -/
theorem C10_persist_frame (s : Service) (now : Int) (ip : String) :
    (∀ r, (s.cache.Get now ip).1 = some r →
       (s.Lookup now ip).service.store = s.store) ∧
    (∀ reader rec org, (s.cache.Get now ip).1 = none →
       s.localDB = some reader → reader ip = some rec →
       IsKnownDatacenterASN rec.autonomousSystemNumber = some org →
       (s.Lookup now ip).service.store = s.store) ∧
    (∀ reader rec st v, (s.cache.Get now ip).1 = none →
       s.localDB = some reader → reader ip = some rec →
       IsKnownDatacenterASN rec.autonomousSystemNumber = none →
       s.store = some st → st.Get now ip = some v →
       (s.Lookup now ip).service.store = s.store) ∧
    (∀ st v, (s.cache.Get now ip).1 = none →
       (∀ reader, s.localDB = some reader → reader ip = none) →
       s.store = some st → st.Get now ip = some v →
       (s.Lookup now ip).service.store = s.store) ∧
    (∀ reader rec, (s.cache.Get now ip).1 = none →
       s.localDB = some reader → reader ip = some rec →
       IsKnownDatacenterASN rec.autonomousSystemNumber = none →
       (∀ st, s.store = some st → st.Get now ip = none) →
       (queryProviders now ip s.providers).1 = none →
       (s.Lookup now ip).service.store = s.store) := by
  refine ⟨?_, ?_, ?_, ?_, ?_⟩
  · intro r hm
    simp [Service.Lookup, hm]
  · intro reader rec org hm hdb hr hreg
    simp [Service.Lookup, hm, hdb, LocalDB.Lookup, hr, hreg]
  · intro reader rec st v hm hdb hr hreg hsome hget
    simp [Service.Lookup, hm, hdb, LocalDB.Lookup, hr, hreg, hsome, hget]
  · intro st v hm hnl hsome hget
    cases hdb : s.localDB with
    | none =>
      simp [Service.Lookup, hm, hdb, Service.lookupNoLocal, hsome, hget]
    | some reader =>
      simp [Service.Lookup, hm, hdb, LocalDB.Lookup, hnl reader hdb,
        Service.lookupNoLocal, hsome, hget]
  · intro reader rec hm hdb hr hreg hstm hq
    cases hsome : s.store with
    | none =>
      simp [Service.Lookup, hm, hdb, LocalDB.Lookup, hr, hreg, hsome,
        Service.lookupEnrich, hq]
    | some st =>
      simp [Service.Lookup, hm, hdb, LocalDB.Lookup, hr, hreg, hsome,
        hstm st hsome, Service.lookupEnrich, hq]

/-- Witness for C10: a concrete memory-cache hit leaves a populated
persistent store untouched. -/
theorem C10_witness :
    ((⟨⟨fun _ => some ⟨{ IP := "3.3.3.3", Source := "ip-api" }, 50⟩, 5⟩,
        some ⟨fun _ => none, 9⟩, none, []⟩ : Service).Lookup 0
        "3.3.3.3").service.store = some ⟨fun _ => none, 9⟩ :=
  (C10_persist_frame
    ⟨⟨fun _ => some ⟨{ IP := "3.3.3.3", Source := "ip-api" }, 50⟩, 5⟩,
      some ⟨fun _ => none, 9⟩, none, []⟩ 0 "3.3.3.3").1
    { IP := "3.3.3.3", Source := "ip-api", Cached := true } rfl

/-! ## C8 — idempotence -/

/-- Reading an IP straight after writing it (same instant, nonnegative TTL)
hits, with `Cached` forced. -/
theorem Cache.Get_Set_same (c : Cache) (now : Int) (ip : String) (v : IPInfo)
    (h : 0 ≤ c.ttl) :
    ((c.Set now ip v).Get now ip).1 = some { v with Cached := true } := by
  have hexp : ¬ (now + c.ttl < now) := by omega
  simp [Cache.Get, Cache.Set, hexp]

/-- Method `Available` only prunes the call window; every other provider field is
unchanged. -/
theorem Provider.Available_fields (p : Provider) (now : Int) :
    (p.Available now).2.Name = p.Name ∧
    (p.Available now).2.QueryFn = p.QueryFn ∧
    (p.Available now).2.RateLimit = p.RateLimit ∧
    (p.Available now).2.NeedsKey = p.NeedsKey ∧
    (p.Available now).2.HasKey = p.HasKey := by
  unfold Provider.Available
  by_cases h1 : (p.NeedsKey && !p.HasKey) = true
  · simp [h1]
  · by_cases h2 : p.RateLimit ≤ 0
    · simp [h1, h2]
    · simp [h1, h2]

/-- An unavailable provider stays unavailable at the same instant: pruning
the window (which `Available` writes back) never grows the in-window call
count. -/
theorem Provider.Available_false_stable (p : Provider) (now : Int)
    (h : (p.Available now).1 = false) :
    (((p.Available now).2).Available now).1 = false := by
  by_cases h1 : (p.NeedsKey && !p.HasKey) = true
  · have e1 : p.Available now = (false, p) := by
      unfold Provider.Available
      rw [if_pos h1]
    rw [e1]
    rw [e1] at h
    simp [e1]
  · by_cases h2 : p.RateLimit ≤ 0
    · have e1 : p.Available now = (p.HasKey, p) := by
        unfold Provider.Available
        rw [if_neg h1, if_pos h2]
      rw [e1] at h
      simp at h
      simp [e1, h]
    · have e1 : p.Available now =
          (decide ((p.callTimes.filter (fun t => now - 60 < t)).length < p.RateLimit),
           { p with callTimes := p.callTimes.filter (fun t => now - 60 < t) }) := by
        unfold Provider.Available
        rw [if_neg h1, if_neg h2]
      rw [e1] at h
      simp only [decide_eq_false_iff_not] at h
      rw [e1]
      show (({ p with callTimes := p.callTimes.filter (fun t => now - 60 < t) } :
          Provider).Available now).1 = false
      have h1' : ¬ (({ p with callTimes := p.callTimes.filter (fun t => now - 60 < t) } :
          Provider).NeedsKey && !({ p with callTimes := p.callTimes.filter (fun t => now - 60 < t) } :
          Provider).HasKey) = true := h1
      have h2' : ¬ ({ p with callTimes := p.callTimes.filter (fun t => now - 60 < t) } :
          Provider).RateLimit ≤ 0 := h2
      unfold Provider.Available
      rw [if_neg h1', if_neg h2']
      have hfl : (p.callTimes.filter (fun t => now - 60 < t)).filter
          (fun t => now - 60 < t) = p.callTimes.filter (fun t => now - 60 < t) :=
        List.filter_eq_self.mpr (fun a ha => (List.mem_filter.mp ha).2)
      simp [hfl, h]

/-- If the provider chain yielded nothing, re-running it at the same instant
on the updated provider states (pruned windows plus the recorded failed
calls) still yields nothing: any provider available in the rerun was
already tried and its query failed, and skipped providers stay skipped. -/
theorem queryProviders_none_stable (now : Int) (ip : String)
    (ps : List Provider) (h : (queryProviders now ip ps).1 = none) :
    (queryProviders now ip (queryProviders now ip ps).2.1).1 = none := by
  induction ps with
  | nil => simp [queryProviders]
  | cons p rest ih =>
    by_cases ha : (p.Available now).1 = true
    · cases hf : p.QueryFn ip with
      | some v =>
        exfalso
        simp [queryProviders, ha, hf] at h
      | none =>
        have h' : (queryProviders now ip rest).1 = none := by
          simpa [queryProviders, ha, hf] using h
        have hstep : queryProviders now ip (p :: rest) =
            (none, ((p.Available now).2).RecordCall now ::
               (queryProviders now ip rest).2.1,
             p.Name :: (queryProviders now ip rest).2.2) := by
          simp [queryProviders, ha, hf, h']
        rw [hstep]
        have hf2 : (((p.Available now).2).RecordCall now).QueryFn ip = none := by
          have hq : (((p.Available now).2).RecordCall now).QueryFn = p.QueryFn := by
            show ((p.Available now).2).QueryFn = p.QueryFn
            exact (Provider.Available_fields p now).2.1
          rw [hq]
          exact hf
        by_cases ha2 : ((((p.Available now).2).RecordCall now).Available now).1 = true
        · simp only [queryProviders, ha2, if_true, hf2]
          exact ih h'
        · simp only [queryProviders, ha2, if_false]
          exact ih h'
    · have h' : (queryProviders now ip rest).1 = none := by
        simpa [queryProviders, ha] using h
      have ha2 : ¬ (((p.Available now).2).Available now).1 = true := by
        have := Provider.Available_false_stable p now (by simpa using ha)
        simp [this]
      have hstep : queryProviders now ip (p :: rest) =
          (none, (p.Available now).2 :: (queryProviders now ip rest).2.1,
           (queryProviders now ip rest).2.2) := by
        simp [queryProviders, ha, h']
      rw [hstep]
      simp only [queryProviders, ha2, if_false]
      exact ih h'

/-- Method `persistResult` leaves the memory cache untouched. -/
theorem Service.persistResult_cache (s : Service) (now : Int) (ip : String)
    (v : IPInfo) : (s.persistResult now ip v).cache = s.cache := by
  cases hs : s.store <;> simp [Service.persistResult, hs]

/-- C8 counterexample: the claim demands identical results on both calls,
but the first call through the datacenter fast path returns
`Cached = false` while the second, served from the memory cache, returns
`Cached = true`. -/
theorem C8_counterexample :
    (((⟨⟨fun _ => none, 10⟩, none, some (fun _ => some ⟨16509, "AMZ"⟩),
        []⟩ : Service).Lookup 0 "1.2.3.4").service.Lookup 0 "1.2.3.4").info ≠
    ((⟨⟨fun _ => none, 10⟩, none, some (fun _ => some ⟨16509, "AMZ"⟩),
        []⟩ : Service).Lookup 0 "1.2.3.4").info := by
  decide

/-- C8 amended: with no change between the calls and a nonnegative cache
TTL, the second `Lookup` returns the first result with `Cached = true`
(served from the memory cache) — except when the first call was the
all-tiers-exhausted fallback, which the code does not cache; there the
second call recomputes and returns the identical minimal result with
`Cached = false`.  The two calls therefore agree on every field except
possibly `Cached`, not on all fields as claimed. -/
theorem C8_idempotence_amended (s : Service) (now : Int) (ip : String)
    (h : 0 ≤ s.cache.ttl) :
    ((s.Lookup now ip).service.Lookup now ip).info =
      { (s.Lookup now ip).info with Cached := true } ∨
    (((s.Lookup now ip).service.Lookup now ip).info = (s.Lookup now ip).info ∧
     (s.Lookup now ip).info.Source = "none" ∧
     (s.Lookup now ip).info.Cached = false) := by
  have hset : ∀ v, ((s.cache.Set now ip v).Get now ip).1 =
      some { v with Cached := true } := fun v => Cache.Get_Set_same s.cache now ip v h
  cases hg : (s.cache.Get now ip).1 with
  | some r =>
    left
    obtain ⟨e, he, hr⟩ := Cache.Get_some_entry s.cache now ip r hg
    subst hr
    simp [Service.Lookup, hg]
  | none =>
    cases hdb : s.localDB with
    | some reader =>
      cases hl : LocalDB.Lookup reader ip with
      | some info =>
        by_cases hdc : info.IsDatacenter = true
        · left
          simp [Service.Lookup, hg, hdb, hl, hdc, hset]
        · cases hstore : s.store with
          | some st =>
            cases hget : st.Get now ip with
            | some stored0 =>
              left
              simp [Service.Lookup, hg, hdb, hl, hdc, hstore, hget, hset]
            | none =>
              cases hq : (queryProviders now ip s.providers).1 with
              | some e0 =>
                left
                simp [Service.Lookup, Service.lookupEnrich, hg, hdb, hl, hdc,
                  hstore, hget, hq, hset, Service.persistResult_cache]
              | none =>
                left
                simp [Service.Lookup, Service.lookupEnrich, hg, hdb, hl, hdc,
                  hstore, hget, hq, hset]
          | none =>
            cases hq : (queryProviders now ip s.providers).1 with
            | some e0 =>
              left
              simp [Service.Lookup, Service.lookupEnrich, hg, hdb, hl, hdc,
                hstore, hq, hset, Service.persistResult_cache]
            | none =>
              left
              simp [Service.Lookup, Service.lookupEnrich, hg, hdb, hl, hdc,
                hstore, hq, hset]
      | none =>
        cases hstore : s.store with
        | some st =>
          cases hget : st.Get now ip with
          | some stored0 =>
            left
            simp [Service.Lookup, Service.lookupNoLocal, hg, hdb, hl, hstore,
              hget, hset]
          | none =>
            cases hq : (queryProviders now ip s.providers).1 with
            | some info0 =>
              left
              simp [Service.Lookup, Service.lookupNoLocal, Service.lookupDirect,
                hg, hdb, hl, hstore, hget, hq, hset, Service.persistResult_cache]
            | none =>
              right
              have hstab := queryProviders_none_stable now ip s.providers hq
              simp [Service.Lookup, Service.lookupNoLocal, Service.lookupDirect,
                hg, hdb, hl, hstore, hget, hq, hstab]
        | none =>
          cases hq : (queryProviders now ip s.providers).1 with
          | some info0 =>
            left
            simp [Service.Lookup, Service.lookupNoLocal, Service.lookupDirect,
              hg, hdb, hl, hstore, hq, hset, Service.persistResult_cache]
          | none =>
            right
            have hstab := queryProviders_none_stable now ip s.providers hq
            simp [Service.Lookup, Service.lookupNoLocal, Service.lookupDirect,
              hg, hdb, hl, hstore, hq, hstab]
    | none =>
      cases hstore : s.store with
      | some st =>
        cases hget : st.Get now ip with
        | some stored0 =>
          left
          simp [Service.Lookup, Service.lookupNoLocal, hg, hdb, hstore, hget,
            hset]
        | none =>
          cases hq : (queryProviders now ip s.providers).1 with
          | some info0 =>
            left
            simp [Service.Lookup, Service.lookupNoLocal, Service.lookupDirect,
              hg, hdb, hstore, hget, hq, hset, Service.persistResult_cache]
          | none =>
            right
            have hstab := queryProviders_none_stable now ip s.providers hq
            simp [Service.Lookup, Service.lookupNoLocal, Service.lookupDirect,
              hg, hdb, hstore, hget, hq, hstab]
      | none =>
        cases hq : (queryProviders now ip s.providers).1 with
        | some info0 =>
          left
          simp [Service.Lookup, Service.lookupNoLocal, Service.lookupDirect,
            hg, hdb, hstore, hq, hset, Service.persistResult_cache]
        | none =>
          right
          have hstab := queryProviders_none_stable now ip s.providers hq
          simp [Service.Lookup, Service.lookupNoLocal, Service.lookupDirect,
            hg, hdb, hstore, hq, hstab]

/-- Witness for C8's amended theorem at a concrete service. -/
theorem C8_witness :
    (((⟨⟨fun _ => none, 4⟩, none, none, []⟩ : Service).Lookup 5
        "2.2.2.2").service.Lookup 5 "2.2.2.2").info =
      { ((⟨⟨fun _ => none, 4⟩, none, none, []⟩ : Service).Lookup 5
          "2.2.2.2").info with Cached := true } ∨
    ((((⟨⟨fun _ => none, 4⟩, none, none, []⟩ : Service).Lookup 5
        "2.2.2.2").service.Lookup 5 "2.2.2.2").info =
      ((⟨⟨fun _ => none, 4⟩, none, none, []⟩ : Service).Lookup 5
        "2.2.2.2").info ∧
     ((⟨⟨fun _ => none, 4⟩, none, none, []⟩ : Service).Lookup 5
        "2.2.2.2").info.Source = "none" ∧
     ((⟨⟨fun _ => none, 4⟩, none, none, []⟩ : Service).Lookup 5
        "2.2.2.2").info.Cached = false) :=
  C8_idempotence_amended ⟨⟨fun _ => none, 4⟩, none, none, []⟩ 5 "2.2.2.2"
    (by decide)

end IPIntel
